import Mathlib

/-!
Verification of the slider core of the open-video-player repository
(src/OpenVideoPlayer.js), shallowly embedded over exact rational
arithmetic.  JS numbers are modelled as rationals; Math.round is
round-half-up (floor of x + 1/2); Math.max and Math.min are the usual
lattice operations on a linear order.  The DOM elements carry no value
state, so the embedding keeps only the private fields of
OpenVideoPlayerSlider and the events it dispatches.
-/

namespace OVP

/-- DOMRect, as consumed by the slider code: the fields of a bounding
box in viewport coordinates. -/
structure DOMRect where
  left : ℚ
  top : ℚ
  right : ℚ
  bottom : ℚ
  width : ℚ
  height : ℚ
  deriving DecidableEq, Repr

/-- OpenVideoPlayerUtils.clamp: Math.max(leftBoundary, Math.min(x, rightBoundary)). -/
def clamp (x leftBoundary rightBoundary : ℚ) : ℚ :=
  max leftBoundary (min x rightBoundary)

/-- OpenVideoPlayerUtils.isPointWithinBBox: left <= px and top <= py and
right > px and bottom > py. -/
def isPointWithinBBox (bbox : DOMRect) (pointX pointY : ℚ) : Bool :=
  decide (bbox.left ≤ pointX) && decide (bbox.top ≤ pointY) &&
    decide (bbox.right > pointX) && decide (bbox.bottom > pointY)

/-- JavaScript Math.round: rounds to the nearest integer, halves toward
positive infinity, that is floor (x + 1/2). -/
def jsRound (x : ℚ) : ℚ :=
  ((Int.floor (x + 1/2) : ℤ) : ℚ)

/-- The slider range record: the fields installed by OpenVideoPlayerSlider.range. -/
structure SRange where
  min : ℚ
  max : ℚ
  step : ℚ
  deriving DecidableEq, Repr

/-- The record stored in the private field lastChange of
OpenVideoPlayerSlider: the (value, ghostValue) pair carried by the last
dispatched change event.  ghostValue is number-or-null in the source,
modelled as Option. -/
structure LastChange where
  value : ℚ
  ghostValue : Option ℚ
  deriving DecidableEq, Repr

/-- The value-relevant private state of an OpenVideoPlayerSlider
instance: rawValue, ghostSliderValue (number-or-null), range, and
lastChange (record-or-null). -/
structure SliderState where
  rawValue : ℚ
  ghostSliderValue : Option ℚ
  range : SRange
  lastChange : Option LastChange
  deriving DecidableEq, Repr

/-- The events an OpenVideoPlayerSlider dispatches: change (with the
value/ghostValue payload and the two has-changed flags), range (with
the new range record) and resize. -/
inductive SliderEvent where
  | change (value : ℚ) (ghostValue : Option ℚ)
      (valueHasChanged ghostValueHasChanged : Bool)
  | rangeEv (r : SRange)
  | resizeEv
  deriving DecidableEq, Repr

/-- OpenVideoPlayerSlider.#adjustValue: multiplier = 1 / step;
value = Math.round(value * multiplier) / multiplier; then clamp to
[min, max]. -/
def adjustValue (r : SRange) (value : ℚ) : ℚ :=
  let multiplier := 1 / r.step
  clamp (jsRound (value * multiplier) / multiplier) r.min r.max

/-- OpenVideoPlayerSlider.get value: adjustValue applied to
min + rawValue * (max - min). -/
def value (s : SliderState) : ℚ :=
  adjustValue s.range (s.range.min + s.rawValue * (s.range.max - s.range.min))

/-- OpenVideoPlayerSlider.get ghostValue: null when ghostSliderValue is
null, otherwise adjustValue applied to min + ghostSliderValue * (max - min). -/
def ghostValue (s : SliderState) : Option ℚ :=
  s.ghostSliderValue.map fun g =>
    adjustValue s.range (s.range.min + g * (s.range.max - s.range.min))

/-- OpenVideoPlayerSlider.#onChange: computes val and ghostVal; if
lastChange is not null and both fields are unchanged, returns without
dispatching; otherwise records the new pair in lastChange and
dispatches one change event carrying the pair and the two has-changed
flags.  Returns the new state and the list of dispatched events.  (The
call to #resizeElements at the top only mutates CSS of the visual
sub-elements and is omitted as presentation.) -/
def onChange (s : SliderState) : SliderState × List SliderEvent :=
  match s.lastChange with
  | some lc =>
      if lc.value = value s ∧ lc.ghostValue = ghostValue s then (s, [])
      else
        ({ s with lastChange := some ⟨value s, ghostValue s⟩ },
         [SliderEvent.change (value s) (ghostValue s)
            (decide ¬(lc.value = value s)) (decide ¬(lc.ghostValue = ghostValue s))])
  | none =>
      ({ s with lastChange := some ⟨value s, ghostValue s⟩ },
       [SliderEvent.change (value s) (ghostValue s) true true])

/-- OpenVideoPlayerSlider.range(min, max, step): installs the new range
record, dispatches a range event, then runs #onChange.  The source
performs no validation of the arguments. -/
def range (s : SliderState) (mn mx st : ℚ) : SliderState × List SliderEvent :=
  let s1 : SliderState := { s with range := ⟨mn, mx, st⟩ }
  let r := onChange s1
  (r.1, SliderEvent.rangeEv ⟨mn, mx, st⟩ :: r.2)

/-- OpenVideoPlayerSlider.set rawValue: clamps the argument to [0, 1]
and runs #onChange. -/
def setRawValue (s : SliderState) (newRawValue : ℚ) : SliderState × List SliderEvent :=
  onChange { s with rawValue := clamp newRawValue 0 1 }

/-- OpenVideoPlayerSlider.set value: adjusts the requested value, maps
it back to a raw fraction (newValue - min) / (max - min), and runs
#onChange. -/
def setValue (s : SliderState) (newValue : ℚ) : SliderState × List SliderEvent :=
  let v := adjustValue s.range newValue
  onChange { s with rawValue := (v - s.range.min) / (s.range.max - s.range.min) }

/-- movePointer (the drag-move and click handler inside
#createElements): rawValue = clamp((clientX - bbox.left) / bbox.width,
0, 1); ghostSliderValue = null; then #onChange.  bbox is the container
bounding box read from the CachedBBox. -/
def movePointer (s : SliderState) (clientX : ℚ) (bbox : DOMRect) :
    SliderState × List SliderEvent :=
  let progress := clientX - bbox.left
  onChange { s with
    rawValue := clamp (progress / bbox.width) 0 1,
    ghostSliderValue := none }

/-- changeGhostSlider (the hover handler inside #createElements): if
the pointer lies within the padded hit-region bounding box,
ghostSliderValue becomes clamp((clientX - contBBox.left) /
contBBox.width, 0, 1), otherwise null; then #onChange.  rawValue is
not touched. -/
def changeGhostSlider (s : SliderState) (clientX clientY : ℚ)
    (paddingBBox contBBox : DOMRect) : SliderState × List SliderEvent :=
  let s1 : SliderState :=
    if isPointWithinBBox paddingBBox clientX clientY then
      { s with ghostSliderValue :=
          (some (clamp ((clientX - contBBox.left) / contBBox.width) 0 1)) }
    else
      { s with ghostSliderValue := none }
  onChange s1

/-- The constructor of OpenVideoPlayerSlider: rawValue = 0,
ghostSliderValue = null, lastChange = null, then range(0, 100, 1).
The range field before that call is undefined in the source; the
placeholder is immediately overwritten. -/
def mkSlider : SliderState × List SliderEvent :=
  range { rawValue := 0, ghostSliderValue := none,
          range := ⟨0, 100, 1⟩, lastChange := none } 0 100 1

/-! ### CachedBBox trace model (OpenVideoPlayerUtils.CachedBBox)

The cache holds DOMRect-or-null, starting null.  A resize signal runs
reFetchBBox, which measures the element and stores the result (eager
refetch).  A read of the value getter returns the cached box when
present, otherwise measures and stores.  The true bounds of the
observed element at step t of a trace are given by an external
function measure t. -/

/-- One step of a CachedBBox trace: either the ResizeObserver fires,
or the value getter is read. -/
inductive BStep where
  | resizeSignal
  | readValue
  deriving DecidableEq, Repr

/-- The cache contents after one step at time t: a resize signal
stores the freshly measured box; a read stores the measured box only
when the cache was empty. -/
def cacheStep (measure : Nat → DOMRect) (t : Nat) (cache : Option DOMRect) :
    BStep → Option DOMRect
  | BStep.resizeSignal => some (measure t)
  | BStep.readValue =>
      match cache with
      | some b => some b
      | none => some (measure t)

/-- The cache contents after a whole trace starting at time t. -/
def cacheAfter (measure : Nat → DOMRect) : List BStep → Nat → Option DOMRect →
    Option DOMRect
  | [], _, cache => cache
  | st :: rest, t, cache => cacheAfter measure rest (t + 1) (cacheStep measure t cache st)

/-- The results of all reads in a trace, each paired with the time at
which the read happened.  A read returns the cached box when present,
otherwise the freshly measured one. -/
def runReads (measure : Nat → DOMRect) : List BStep → Nat → Option DOMRect →
    List (Nat × DOMRect)
  | [], _, _ => []
  | BStep.resizeSignal :: rest, t, _ =>
      runReads measure rest (t + 1) (some (measure t))
  | BStep.readValue :: rest, t, cache =>
      match cache with
      | some b => (t, b) :: runReads measure rest (t + 1) (some b)
      | none => (t, measure t) :: runReads measure rest (t + 1) (some (measure t))

/-! ### Concrete fixtures -/

/-- The slider state right after construction: rawValue 0, no ghost,
default range (0, 100, 1), lastChange recorded by the initial
#onChange run. -/
def dedupState : SliderState :=
  { rawValue := 0, ghostSliderValue := none, range := ⟨0, 100, 1⟩,
    lastChange := some ⟨0, none⟩ }

/-- A fixture whose range max (10) is not a multiple of the step (3). -/
def badState : SliderState :=
  { rawValue := 0, ghostSliderValue := none, range := ⟨0, 10, 3⟩,
    lastChange := none }

/-- A fixture at raw position 1/2 under range (0, 10, 1). -/
def halfState : SliderState :=
  { rawValue := 1/2, ghostSliderValue := none, range := ⟨0, 10, 1⟩,
    lastChange := none }

/-- A fixture with the fractional range (0, 1, 1/20). -/
def fineState : SliderState :=
  { rawValue := 0, ghostSliderValue := none, range := ⟨0, 1, 1/20⟩,
    lastChange := none }

/-- A family of measured bounding boxes indexed by time, used to
instantiate the CachedBBox trace model. -/
def testMeasure : Nat → DOMRect := fun k => ⟨(k : ℚ), 0, 0, 0, 0, 0⟩

/-- The raw position lies in the unit interval. -/
def rawInBounds (s : SliderState) : Prop :=
  0 ≤ s.rawValue ∧ s.rawValue ≤ 1

/-! ### Helper lemmas -/

theorem le_clamp (x lo hi : ℚ) : lo ≤ clamp x lo hi :=
  le_max_left lo (min x hi)

theorem clamp_le (x lo hi : ℚ) (h : lo ≤ hi) : clamp x lo hi ≤ hi :=
  max_le h (min_le_right x hi)

theorem clamp_mul_of_pos (x lo hi c : ℚ) (hc : 0 < c) :
    clamp x lo hi * c = clamp (x * c) (lo * c) (hi * c) := by
  unfold clamp
  rw [max_mul_of_nonneg _ _ hc.le, min_mul_of_nonneg _ _ hc.le]

theorem clamp_clamp (x lo hi : ℚ) :
    clamp (clamp x lo hi) lo hi = clamp x lo hi := by
  unfold clamp
  rcases le_total lo hi with h | h
  · have h1 : max lo (min x hi) ≤ hi := max_le h (min_le_right x hi)
    rw [min_eq_left h1, ← max_assoc, max_self]
  · have h2 : hi ≤ max lo (min x hi) := le_trans h (le_max_left lo (min x hi))
    have h3 : min x hi ≤ lo := le_trans (min_le_right x hi) h
    rw [min_eq_right h2, max_eq_left h, max_eq_left h3]

theorem jsRound_intCast (z : ℤ) : jsRound (z : ℚ) = (z : ℚ) := by
  unfold jsRound
  rw [Int.floor_int_add]
  norm_num

/-- adjustValue rewritten without the intermediate multiplier: it is
the quantize-and-clamp of the data model, clamp(round(v / step) * step,
min, max).  The rewriting is exact in rational arithmetic (both sides
are 0-valued divisions when step = 0). -/
theorem adjustValue_eq (r : SRange) (v : ℚ) :
    adjustValue r v = clamp (jsRound (v / r.step) * r.step) r.min r.max := by
  show clamp (jsRound (v * (1 / r.step)) / (1 / r.step)) r.min r.max = _
  rw [one_div, div_inv_eq_mul, ← div_eq_mul_inv]

/-- The state returned by #onChange is the input state with lastChange
set to the freshly computed pair; all other fields are untouched. -/
theorem onChange_fst (s : SliderState) :
    (onChange s).1 = { s with lastChange := some ⟨value s, ghostValue s⟩ } := by
  unfold onChange
  split
  next lc heq =>
    split
    next hc =>
      obtain ⟨h1, h2⟩ := hc
      cases s with
      | mk rv gv rg lcc =>
        cases lc with
        | mk lv lg =>
          replace heq : lcc = some ⟨lv, lg⟩ := heq
          replace h1 : lv = adjustValue rg (rg.min + rv * (rg.max - rg.min)) := h1
          replace h2 : lg = Option.map
            (fun g => adjustValue rg (rg.min + g * (rg.max - rg.min))) gv := h2
          subst heq
          subst h1
          subst h2
          rfl
    next hc => rfl
  next heq => rfl

/-- When lastChange already carries the current (value, ghostValue)
pair, #onChange returns without mutating state or dispatching. -/
theorem onChange_dedup (s : SliderState) (lc : LastChange)
    (h : s.lastChange = some lc) (h1 : lc.value = value s)
    (h2 : lc.ghostValue = ghostValue s) : onChange s = (s, []) := by
  unfold onChange
  rw [h]
  exact if_pos ⟨h1, h2⟩

theorem setValue_fst (s : SliderState) (v : ℚ) :
    (setValue s v).1 =
      { s with
        rawValue := (adjustValue s.range v - s.range.min) /
          (s.range.max - s.range.min),
        lastChange := (some
          ⟨value { s with rawValue := (adjustValue s.range v - s.range.min) /
              (s.range.max - s.range.min) },
           ghostValue { s with rawValue := (adjustValue s.range v - s.range.min) /
              (s.range.max - s.range.min) }⟩) } := by
  unfold setValue
  rw [onChange_fst]

/-- A second identical value assignment finds lastChange equal to the
recomputed pair and dispatches nothing. -/
theorem setValue_setValue (s : SliderState) (v : ℚ) :
    (setValue (setValue s v).1 v).2 = [] := by
  have hlc : (setValue s v).1.lastChange =
      some ⟨value (setValue s v).1, ghostValue (setValue s v).1⟩ := by
    rw [setValue_fst]
    rfl
  have hfix : { (setValue s v).1 with
      rawValue := (adjustValue (setValue s v).1.range v - (setValue s v).1.range.min) /
        ((setValue s v).1.range.max - (setValue s v).1.range.min) } =
      (setValue s v).1 := by
    rw [setValue_fst]
  have heq2 : setValue ((setValue s v).1) v = onChange ((setValue s v).1) :=
    congrArg onChange hfix
  rw [heq2, onChange_dedup _ _ hlc rfl rfl]

/-- Freshness invariant of the CachedBBox trace model: starting below
the current time with a cache that is either empty or holds a box
measured at or after time i, every later read returns a box measured
at or after time i. -/
theorem runReads_fresh_aux (measure : Nat → DOMRect) (rest : List BStep) :
    ∀ (t i : Nat) (cache : Option DOMRect), i < t →
      (cache = none ∨ ∃ k, i ≤ k ∧ cache = some (measure k)) →
      ∀ p ∈ runReads measure rest t cache, ∃ k, i ≤ k ∧ p.2 = measure k := by
  induction rest with
  | nil =>
    intro t i cache hit hc p hp
    simp [runReads] at hp
  | cons st rest ih =>
    intro t i cache hit hc p hp
    cases st with
    | resizeSignal =>
      have hr : runReads measure (BStep.resizeSignal :: rest) t cache =
          runReads measure rest (t + 1) (some (measure t)) := rfl
      rw [hr] at hp
      exact ih (t + 1) i (some (measure t)) (Nat.lt_succ_of_lt hit)
        (Or.inr ⟨t, Nat.le_of_lt hit, rfl⟩) p hp
    | readValue =>
      cases cache with
      | some b =>
        have hr : runReads measure (BStep.readValue :: rest) t (some b) =
            (t, b) :: runReads measure rest (t + 1) (some b) := rfl
        rw [hr] at hp
        rcases hc with hnone | ⟨k, hik, hbk⟩
        · exact absurd hnone (by simp)
        · rcases List.mem_cons.mp hp with hp1 | hp2
          · exact ⟨k, hik, by rw [hp1]; exact Option.some_inj.mp hbk⟩
          · exact ih (t + 1) i (some b) (Nat.lt_succ_of_lt hit)
              (Or.inr ⟨k, hik, hbk⟩) p hp2
      | none =>
        have hr : runReads measure (BStep.readValue :: rest) t none =
            (t, measure t) :: runReads measure rest (t + 1)
              (some (measure t)) := rfl
        rw [hr] at hp
        rcases List.mem_cons.mp hp with hp1 | hp2
        · exact ⟨t, Nat.le_of_lt hit, by rw [hp1]⟩
        · exact ih (t + 1) i (some (measure t)) (Nat.lt_succ_of_lt hit)
            (Or.inr ⟨t, Nat.le_of_lt hit, rfl⟩) p hp2

/-! ### Claims -/

/-- Claim C1: the slider never emits a change event whose (value,
ghostValue) pair equals the pair of the previously emitted change
event.  Every mutating operation funnels through onChange; when the
freshly derived pair equals the last-notified pair, onChange returns
the state unchanged and emits nothing.  In particular two identical
value assignments in a row emit at most one change event: the second
assignment emits none. -/
theorem change_event_dedup :
    (∀ (s : SliderState) (lc : LastChange), s.lastChange = some lc →
        lc.value = value s → lc.ghostValue = ghostValue s →
        onChange s = (s, [])) ∧
    (∀ (s : SliderState) (v : ℚ), (setValue (setValue s v).1 v).2 = []) :=
  ⟨fun s lc h h1 h2 => onChange_dedup s lc h h1 h2,
   fun s v => setValue_setValue s v⟩

/-- Witness for C1: in the post-construction state the pair (0, none)
has already been notified, so a repeated evaluation emits nothing. -/
theorem change_event_dedup_witness : onChange dedupState = (dedupState, []) :=
  change_event_dedup.1 dedupState ⟨0, none⟩ rfl
    (by norm_num [value, adjustValue, clamp, jsRound, min_def, max_def, dedupState])
    rfl

/-- Claim C2: for every slider state whose range satisfies min < max
and step > 0, the value getter returns the quantized-and-clamped
derivation clamp(round((min + rawValue * (max - min)) / step) * step,
min, max), computed from the raw position and the range — the value is
not stored. -/
theorem value_getter_derivation (s : SliderState)
    (hmm : s.range.min < s.range.max) (hst : 0 < s.range.step) :
    value s = clamp (jsRound ((s.range.min + s.rawValue *
      (s.range.max - s.range.min)) / s.range.step) * s.range.step)
      s.range.min s.range.max :=
  adjustValue_eq s.range _

/-- Witness for C2 at the post-construction state. -/
theorem value_getter_derivation_witness :
    value dedupState = clamp (jsRound ((0 + 0 * (100 - 0)) / 1) * 1) 0 100 :=
  value_getter_derivation dedupState (by decide) (by decide)

/-- Claim C3 counterexample: range is called with min = 5, max = 1,
step = 1, violating the Range invariant (min >= max), yet the
operation does not reject: the invalid range record is installed
verbatim. -/
theorem range_validation_counterexample :
    (1:ℚ) ≤ 5 ∧ (range dedupState 5 1 1).1.range = ⟨5, 1, 1⟩ := by
  constructor
  · decide
  · norm_num [range, onChange, value, ghostValue, adjustValue, clamp,
      jsRound, min_def, max_def, dedupState]

/-- Claim C3 (amended): the range setter performs no validation at
all.  For every arguments min, max, step — including those with
min >= max or step <= 0 — the record is installed unchanged; the
operation is total and has no error path. -/
theorem range_installs_any_arguments (s : SliderState) (mn mx st : ℚ) :
    (range s mn mx st).1.range = ⟨mn, mx, st⟩ := by
  show (onChange { s with range := (⟨mn, mx, st⟩ : SRange) }).1.range = _
  rw [onChange_fst]

/-- Claim C4 counterexample: with range (0, 10, 3) — whose max is not
a multiple of the step — setting value = 100 and reading value back
yields 9, while the claimed round-trip formula
clamp(round(100/3)*3, 0, 10) yields 10. -/
theorem setValue_roundtrip_counterexample :
    value ((setValue badState 100).1) = 9 ∧
    clamp (jsRound ((100:ℚ) / 3) * 3) 0 10 = 10 ∧ (9:ℚ) ≠ 10 := by
  refine ⟨?_, ?_, by norm_num⟩
  · norm_num [badState, setValue, onChange, value, ghostValue, adjustValue,
      clamp, jsRound, min_def, max_def]
  · norm_num [clamp, jsRound, min_def, max_def]

/-- Claim C4 (amended): for every value v and every valid range
(min < max, step > 0) whose bounds min and max are integer multiples
of step, setting value = v and then reading value yields
clamp(round(v/step)*step, min, max).  (Without the multiples side
condition the clamp can land on a bound that re-quantization moves, as
the counterexample shows; both concrete scenarios of the claim, with
range (0, 1, 0.05), satisfy it.) -/
theorem setValue_roundtrip (s : SliderState) (v : ℚ)
    (hmm : s.range.min < s.range.max) (hst : 0 < s.range.step)
    (a b : ℤ) (ha : s.range.min = (a : ℚ) * s.range.step)
    (hb : s.range.max = (b : ℚ) * s.range.step) :
    value (setValue s v).1 =
      clamp (jsRound (v / s.range.step) * s.range.step)
        s.range.min s.range.max := by
  have hne : s.range.max - s.range.min ≠ 0 := sub_ne_zero.mpr (ne_of_gt hmm)
  rw [setValue_fst]
  show adjustValue s.range (s.range.min +
      (adjustValue s.range v - s.range.min) / (s.range.max - s.range.min) *
        (s.range.max - s.range.min)) = _
  rw [div_mul_cancel₀ _ hne]
  have hmid : s.range.min + (adjustValue s.range v - s.range.min) =
      adjustValue s.range v := by ring
  rw [hmid, adjustValue_eq, adjustValue_eq]
  have hq : jsRound (v / s.range.step) =
      ((⌊v / s.range.step + 1/2⌋ : ℤ) : ℚ) := rfl
  rw [hq, ha, hb]
  rw [← clamp_mul_of_pos ((⌊v / s.range.step + 1/2⌋ : ℤ) : ℚ) _ _ _ hst]
  rw [mul_div_cancel_right₀ _ (ne_of_gt hst)]
  have hcast : clamp ((⌊v / s.range.step + 1/2⌋ : ℤ) : ℚ) (a : ℚ) (b : ℚ) =
      ((max a (min ⌊v / s.range.step + 1/2⌋ b) : ℤ) : ℚ) := by
    unfold clamp
    push_cast
    rfl
  rw [hcast, jsRound_intCast, ← hcast]
  rw [← clamp_mul_of_pos _ _ _ _ hst, clamp_clamp]

/-- Witness for C4: concrete scenario 2 of the claim — under range
(0, 1, 0.05), setting 0.52 reads back 0.5, and setting 0.5 reads back
exactly 0.5. -/
theorem setValue_roundtrip_witness :
    (value (setValue fineState (52/100)).1 =
      clamp (jsRound ((52/100) / (1/20)) * (1/20)) 0 1) ∧
    value (setValue fineState (52/100)).1 = 1/2 ∧
    value (setValue fineState (1/2)).1 = 1/2 :=
  ⟨setValue_roundtrip fineState (52/100) (by norm_num [fineState])
      (by norm_num [fineState]) 0 20 (by norm_num [fineState])
      (by norm_num [fineState]),
   by norm_num [fineState, setValue, onChange, value, ghostValue, adjustValue,
     clamp, jsRound, min_def, max_def],
   by norm_num [fineState, setValue, onChange, value, ghostValue, adjustValue,
     clamp, jsRound, min_def, max_def]⟩

/-- Claim C5: a range change preserves the raw fraction, not the
absolute value: after range(min, max, step) with a valid new range,
the raw position is unchanged and value equals the quantization of
min + rawValue * (max - min) under the new range. -/
theorem range_change_preserves_fraction (s : SliderState) (mn mx st : ℚ)
    (hmm : mn < mx) (hst : 0 < st) :
    (range s mn mx st).1.rawValue = s.rawValue ∧
    value (range s mn mx st).1 =
      clamp (jsRound ((mn + s.rawValue * (mx - mn)) / st) * st) mn mx := by
  constructor
  · show (onChange { s with range := (⟨mn, mx, st⟩ : SRange) }).1.rawValue = s.rawValue
    rw [onChange_fst]
  · show value (onChange { s with range := (⟨mn, mx, st⟩ : SRange) }).1 = _
    rw [onChange_fst]
    show adjustValue ⟨mn, mx, st⟩ (mn + s.rawValue * (mx - mn)) = _
    rw [adjustValue_eq]

/-- Witness for C5: concrete scenario 3 of the claim — raw position
1/2 under range (0, 10, 1) (value 5); after range(0, 100, 1) the raw
position is still 1/2 and value becomes 50. -/
theorem range_change_preserves_fraction_witness :
    ((range halfState 0 100 1).1.rawValue = halfState.rawValue ∧
     value (range halfState 0 100 1).1 =
       clamp (jsRound ((0 + halfState.rawValue * (100 - 0)) / 1) * 1) 0 100) ∧
    value (range halfState 0 100 1).1 = 50 :=
  ⟨range_change_preserves_fraction halfState 0 100 1 (by decide) (by decide),
   by norm_num [halfState, range, onChange, value, ghostValue, adjustValue,
     clamp, jsRound, min_def, max_def]⟩

/-- Claim C6: pointer-driven commit: a drag-move or click at
coordinate clientX over a container box sets the raw position to
clamp((clientX - left) / width, 0, 1) and clears the ghost position;
concretely, on a freshly constructed slider (default range
(0, 100, 1)), a click at fraction 0.37 of the track width yields value
37 and a change event with valueHasChanged = true. -/
theorem pointer_commit :
    (∀ (s : SliderState) (cx : ℚ) (bb : DOMRect),
        (movePointer s cx bb).1.rawValue =
          clamp ((cx - bb.left) / bb.width) 0 1 ∧
        (movePointer s cx bb).1.ghostSliderValue = none) ∧
    (∀ (L W : ℚ), 0 < W →
        value (movePointer mkSlider.1 (L + 37/100 * W) ⟨L, 0, 0, 0, W, 0⟩).1 =
          37 ∧
        (movePointer mkSlider.1 (L + 37/100 * W) ⟨L, 0, 0, 0, W, 0⟩).2 =
          [SliderEvent.change 37 none true false]) := by
  constructor
  · intro s cx bb
    constructor
    · show (onChange { s with
          rawValue := clamp ((cx - bb.left) / bb.width) 0 1,
          ghostSliderValue := none }).1.rawValue =
        clamp ((cx - bb.left) / bb.width) 0 1
      rw [onChange_fst]
    · show (onChange { s with
          rawValue := clamp ((cx - bb.left) / bb.width) 0 1,
          ghostSliderValue := none }).1.ghostSliderValue = none
      rw [onChange_fst]
  · intro L W hW
    have hfrac : (L + 37/100 * W - L) / W = 37/100 := by
      have h1 : L + 37/100 * W - L = 37/100 * W := by ring
      rw [h1, mul_div_assoc, div_self (ne_of_gt hW), mul_one]
    have hsl : mkSlider.1 = dedupState := by
      norm_num [mkSlider, range, onChange, value, ghostValue, adjustValue,
        clamp, jsRound, min_def, max_def, dedupState]
    constructor
    · show value (onChange { mkSlider.1 with
          rawValue := clamp ((L + 37/100 * W - L) / W) 0 1,
          ghostSliderValue := none }).1 = 37
      rw [hfrac, hsl]
      norm_num [dedupState, onChange, value, ghostValue, adjustValue,
        clamp, jsRound, min_def, max_def]
    · show (onChange { mkSlider.1 with
          rawValue := clamp ((L + 37/100 * W - L) / W) 0 1,
          ghostSliderValue := none }).2 =
        [SliderEvent.change 37 none true false]
      rw [hfrac, hsl]
      norm_num [dedupState, onChange, value, ghostValue, adjustValue,
        clamp, jsRound, min_def, max_def]

/-- Witness for C6: the concrete click, with the track at left 0 and
width 100. -/
theorem pointer_commit_witness :
    value (movePointer mkSlider.1 ((0:ℚ) + 37/100 * 100) ⟨0, 0, 0, 0, 100, 0⟩).1
        = 37 ∧
    (movePointer mkSlider.1 ((0:ℚ) + 37/100 * 100) ⟨0, 0, 0, 0, 100, 0⟩).2 =
      [SliderEvent.change 37 none true false] :=
  pointer_commit.2 0 100 (by decide)

/-- Claim C7: ghost independence: the hover handler mutates only the
ghost position — the raw position and hence the derived value are
unchanged — and every committed interaction (drag-move or click) sets
the ghost position to null. -/
theorem ghost_independence :
    (∀ (s : SliderState) (cx cy : ℚ) (pb cb : DOMRect),
        (changeGhostSlider s cx cy pb cb).1.rawValue = s.rawValue ∧
        value (changeGhostSlider s cx cy pb cb).1 = value s) ∧
    (∀ (s : SliderState) (cx : ℚ) (bb : DOMRect),
        (movePointer s cx bb).1.ghostSliderValue = none) := by
  constructor
  · intro s cx cy pb cb
    have hgen : ∀ (g : Option ℚ),
        (onChange { s with ghostSliderValue := g }).1.rawValue = s.rawValue ∧
        value (onChange { s with ghostSliderValue := g }).1 = value s := by
      intro g
      rw [onChange_fst]
      exact ⟨rfl, rfl⟩
    cases hb : isPointWithinBBox pb cx cy with
    | true =>
      have heq : changeGhostSlider s cx cy pb cb = onChange { s with
          ghostSliderValue :=
            (some (clamp ((cx - cb.left) / cb.width) 0 1)) } := by
        unfold changeGhostSlider
        rw [hb]
        rfl
      rw [heq]
      exact hgen _
    | false =>
      have heq : changeGhostSlider s cx cy pb cb =
          onChange { s with ghostSliderValue := none } := by
        unfold changeGhostSlider
        rw [hb]
        rfl
      rw [heq]
      exact hgen _
  · intro s cx bb
    show (onChange { s with
        rawValue := clamp ((cx - bb.left) / bb.width) 0 1,
        ghostSliderValue := none }).1.ghostSliderValue = none
    rw [onChange_fst]

/-- Claim C8: the raw position always lies in [0, 1]: it is 0 at
construction, and each operation that writes it — the rawValue setter,
the pointer commit, and (under a valid range) the value setter —
leaves it in the unit interval. -/
theorem rawValue_invariant :
    (mkSlider.1.rawValue = 0 ∧ rawInBounds mkSlider.1) ∧
    (∀ (s : SliderState) (x : ℚ), rawInBounds (setRawValue s x).1) ∧
    (∀ (s : SliderState) (cx : ℚ) (bb : DOMRect),
        rawInBounds (movePointer s cx bb).1) ∧
    (∀ (s : SliderState) (v : ℚ), s.range.min < s.range.max →
        rawInBounds (setValue s v).1) := by
  refine ⟨⟨?_, ?_, ?_⟩, ?_, ?_, ?_⟩
  · norm_num [mkSlider, range, onChange, value, ghostValue, adjustValue,
      clamp, jsRound, min_def, max_def]
  · norm_num [rawInBounds, mkSlider, range, onChange, value, ghostValue,
      adjustValue, clamp, jsRound, min_def, max_def]
  · norm_num [rawInBounds, mkSlider, range, onChange, value, ghostValue,
      adjustValue, clamp, jsRound, min_def, max_def]
  · intro s x
    show rawInBounds (onChange { s with rawValue := clamp x 0 1 }).1
    rw [onChange_fst]
    exact ⟨le_clamp x 0 1, clamp_le x 0 1 (by norm_num)⟩
  · intro s cx bb
    show rawInBounds (onChange { s with
        rawValue := clamp ((cx - bb.left) / bb.width) 0 1,
        ghostSliderValue := none }).1
    rw [onChange_fst]
    exact ⟨le_clamp _ 0 1, clamp_le _ 0 1 (by norm_num)⟩
  · intro s v hmm
    show rawInBounds (onChange { s with
        rawValue := (adjustValue s.range v - s.range.min) /
          (s.range.max - s.range.min) }).1
    rw [onChange_fst]
    have h1 : s.range.min ≤ adjustValue s.range v := by
      rw [adjustValue_eq]
      exact le_clamp _ _ _
    have h2 : adjustValue s.range v ≤ s.range.max := by
      rw [adjustValue_eq]
      exact clamp_le _ _ _ hmm.le
    constructor
    · show 0 ≤ (adjustValue s.range v - s.range.min) /
        (s.range.max - s.range.min)
      exact div_nonneg (sub_nonneg.mpr h1) (sub_nonneg.mpr hmm.le)
    · show (adjustValue s.range v - s.range.min) /
        (s.range.max - s.range.min) ≤ 1
      rw [div_le_one (sub_pos.mpr hmm)]
      exact sub_le_sub_right h2 _

/-- Witness for C8: the value setter keeps the raw position in bounds
even for a far out-of-range requested value. -/
theorem rawValue_invariant_witness : rawInBounds (setValue halfState 100).1 :=
  rawValue_invariant.2.2.2 halfState 100 (by decide)

/-- Claim C9: CachedBBox freshness: a resize signal eagerly refetches
the cached box (the cache right after a signal at time i holds the box
measured at time i, whatever it held before), and along any trace that
starts with a resize signal, every read returns a box measured at or
after that signal — never a pre-resize box. -/
theorem cachedBBox_freshness :
    (∀ (measure : Nat → DOMRect) (i : Nat) (cache : Option DOMRect),
        cacheAfter measure [BStep.resizeSignal] i cache = some (measure i)) ∧
    (∀ (measure : Nat → DOMRect) (post : List BStep) (cache : Option DOMRect)
        (i : Nat),
        ∀ p ∈ runReads measure (BStep.resizeSignal :: post) i cache,
          ∃ k, i ≤ k ∧ p.2 = measure k) := by
  constructor
  · intro m i c
    rfl
  · intro m post c i p hp
    have hr : runReads m (BStep.resizeSignal :: post) i c =
        runReads m post (i + 1) (some (m i)) := rfl
    rw [hr] at hp
    exact runReads_fresh_aux m post (i + 1) i (some (m i)) (Nat.lt_succ_self i)
      (Or.inr ⟨i, Nat.le_refl i, rfl⟩) p hp

/-- Witness for C9: the read right after a resize signal at time 0
observes the box measured at time 0. -/
theorem cachedBBox_freshness_witness :
    ∃ k, 0 ≤ k ∧ testMeasure 0 = testMeasure k :=
  cachedBBox_freshness.2 testMeasure [BStep.readValue] none 0 (1, testMeasure 0)
    (by simp [runReads])

/-- Claim C10: clamp is idempotent: clamp(clamp(x, lo, hi), lo, hi) =
clamp(x, lo, hi) for all rationals x, lo, hi, where clamp(x, lo, hi) =
max(lo, min(x, hi)). -/
theorem clamp_idem (x lo hi : ℚ) :
    clamp (clamp x lo hi) lo hi = clamp x lo hi :=
  clamp_clamp x lo hi

end OVP
